import Mathlib

/-!
Verification of the aether-bytes library: a shallow embedding of its data
model (`Entry`, `GeneratorFile`), the code generator (`generator.ts`), the
analyzer's placeholder scanning (`analyzer.ts`), the base64 layer of the
compression boundary (`compression.ts`), and the orchestrator batch
operations (`index.ts`: `load`, `compress`, `modifyEntries`, `addExtra`,
`generate`).

JavaScript objects are embedded as insertion-ordered association lists with
upsert (assign-in-place) semantics; machine I/O (file reads/writes) and the
DEFLATE/INFLATE routine are external collaborators and appear as explicit
inputs or opaque function parameters.
-/

namespace AetherBytes

/-- A value that can appear in an entry's `extra` metadata record
(`string | number | boolean` in the source). Numbers are embedded as
integers; no claim depends on float formatting. -/
inductive ExtraVal where
  | str (s : String)
  | num (n : Int)
  | bool (b : Bool)
deriving DecidableEq, Repr

/-- `typeof value` for an `ExtraVal`. -/
def ExtraVal.typeName : ExtraVal → String
  | .str _ => "string"
  | .num _ => "number"
  | .bool _ => "boolean"

/-- The `Entry` interface from `analyzer.ts`. The `types` and `extra`
objects are embedded as insertion-ordered association lists. -/
structure Entry where
  name : String
  ext : String
  path : String
  content : String
  types : Option (List (String × String))
  compressed : Bool
  data : Option String
  extra : Option (List (String × ExtraVal))
deriving DecidableEq, Repr

/-- The `GeneratorFile` interface from `generator.ts`. -/
structure GeneratorFile where
  filename : String
  ext : String
  content : String
deriving DecidableEq, Repr

/-- The `exportFormat` option values: `"js" | "ts" | "json"`. -/
inductive ExportFormat where
  | js
  | ts
  | json
deriving DecidableEq, Repr

/-- The two source dialects `"js" | "ts"` used for the `format` parameters
of the sub-generators and for the `exportHelpersFormat` option. -/
inductive SrcFormat where
  | js
  | ts
deriving DecidableEq, Repr

/-- The file-extension string of a source dialect. -/
def SrcFormat.str : SrcFormat → String
  | .js => "js"
  | .ts => "ts"

/-- The file-extension string of an export format. -/
def ExportFormat.str : ExportFormat → String
  | .js => "js"
  | .ts => "ts"
  | .json => "json"

/-- The `GeneratorOptions` interface: every field optional, defaults are
applied inside `generate` exactly as the source's destructuring does. -/
structure GeneratorOptions where
  indexFilename : Option String := none
  typesFilename : Option String := none
  helpersFilename : Option String := none
  jsonFilename : Option String := none
  exportFormat : Option ExportFormat := none
  exportHelpers : Option Bool := none
  exportHelpersFormat : Option SrcFormat := none
  mergeFiles : Option Bool := none
deriving DecidableEq, Repr

/-- JavaScript object assignment `obj[k] = v`: if `k` is already a key the
value is replaced in place (key order kept), otherwise the pair is appended. -/
def jsUpsert {α : Type} : List (String × α) → String → α → List (String × α)
  | [], k, v => [(k, v)]
  | (k', v') :: rest, k, v =>
    if k' = k then (k', v) :: rest else (k', v') :: jsUpsert rest k v

/-- A JSON value, restricted to the shapes `exportJsonIndex` produces. -/
inductive Json where
  | str (s : String)
  | num (n : Int)
  | bool (b : Bool)
  | obj (fields : List (String × Json))

/-- Lowercase hex digit for `n < 16`. -/
def hexDigit (n : Nat) : Char :=
  if n < 10 then Char.ofNat (48 + n) else Char.ofNat (87 + n)

/-- The escaping `JSON.stringify` applies inside a string literal. -/
def jsonEscapeChar (c : Char) : List Char :=
  if c = '"' then ['\\', '"']
  else if c = '\\' then ['\\', '\\']
  else if c = '\x08' then ['\\', 'b']
  else if c = '\x0c' then ['\\', 'f']
  else if c = '\n' then ['\\', 'n']
  else if c = '\r' then ['\\', 'r']
  else if c = '\t' then ['\\', 't']
  else if c.toNat < 32 then
    ['\\', 'u', '0', '0', hexDigit (c.toNat / 16), hexDigit (c.toNat % 16)]
  else [c]

/-- `JSON.stringify` of a single string value. -/
def jsonQuote (s : String) : String :=
  "\"" ++ String.mk (s.toList.foldr (fun c acc => jsonEscapeChar c ++ acc) []) ++ "\""

/-- `indent` spaces times `n` levels, as used by `JSON.stringify(x, null, 2)`. -/
def jsonPad (depth : Nat) : String :=
  String.mk (List.replicate (2 * depth) ' ')

mutual

/-- `JSON.stringify(v, null, 2)` at nesting depth `depth`. -/
def jsonRender : Json → Nat → String
  | .str s, _ => jsonQuote s
  | .num n, _ => toString n
  | .bool b, _ => if b then "true" else "false"
  | .obj [], _ => "\x7b\x7d"
  | .obj (f :: fs), depth =>
    "\x7b\n" ++ jsonRenderFields (f :: fs) (depth + 1) ++ "\n" ++ jsonPad depth ++ "\x7d"

/-- Renders the fields of a non-empty object, one per line, comma-separated. -/
def jsonRenderFields : List (String × Json) → Nat → String
  | [], _ => ""
  | [(k, v)], depth => jsonPad depth ++ jsonQuote k ++ ": " ++ jsonRender v depth
  | (k, v) :: f :: fs, depth =>
    jsonPad depth ++ jsonQuote k ++ ": " ++ jsonRender v depth ++ ",\n" ++
      jsonRenderFields (f :: fs) depth

end

/-- Top-level `JSON.stringify(x, null, 2)`. -/
def jsonStringify (v : Json) : String := jsonRender v 0

/-- The `Json` value of an `ExtraVal`. -/
def ExtraVal.toJson : ExtraVal → Json
  | .str s => .str s
  | .num n => .num n
  | .bool b => .bool b

/-- `escapeUnicode` from `generator.ts`: replaces U+2028 and U+2029 with
their `\uXXXX` escape text. -/
def escapeUnicode (str : String) : String :=
  String.mk (str.toList.foldr
    (fun c acc =>
      if c = ' ' then '\\' :: 'u' :: '2' :: '0' :: '2' :: '8' :: acc
      else if c = ' ' then '\\' :: 'u' :: '2' :: '0' :: '2' :: '9' :: acc
      else c :: acc) [])

/-- `\W` of JavaScript: anything but `[A-Za-z0-9_]` (ASCII). -/
def isWordChar (c : Char) : Bool :=
  ('a' ≤ c && c ≤ 'z') || ('A' ≤ c && c ≤ 'Z') || ('0' ≤ c && c ≤ '9') || c = '_'

/-- `sanitizeTypeName` from `generator.ts`: replace every non-word character
with `_`, then prefix a leading digit with `_`. -/
def sanitizeTypeName (name : String) : String :=
  let replaced := name.toList.map (fun c => if isWordChar c then c else '_')
  match replaced with
  | [] => ""
  | c :: _ => if '0' ≤ c && c ≤ '9' then String.mk ('_' :: replaced) else String.mk replaced

/-- Rendering of one `extra` value inside the entry-table literal:
strings are double-quoted, numbers and booleans are interpolated bare. -/
def extraValLiteral : ExtraVal → String
  | .str s => "\"" ++ s ++ "\""
  | .num n => toString n
  | .bool b => if b then "true" else "false"

/-- The `extraFields` string of one entry in `formatJsEntries`. -/
def entryExtraFields (entry : Entry) : String :=
  match entry.extra with
  | none => ""
  | some extra =>
    String.intercalate ",\n    "
      (extra.map (fun kv => kv.1 ++ ": " ++ extraValLiteral kv.2))

/-- `formatJsEntries` from `generator.ts`: the ordered `Map` initializer
entries, one `["name", { ... }]` tuple per entry. -/
def formatJsEntries (entries : List Entry) : String :=
  String.intercalate ",\n  "
    (entries.map (fun entry =>
      let extraFields := entryExtraFields entry
      "[\"" ++ entry.name ++ "\", \x7b\n    " ++
        (if extraFields ≠ "" then extraFields ++ ",\n    " else "") ++
        "content: " ++
        (match entry.data with
         | some d => "\"" ++ d ++ "\""
         | none => escapeUnicode (jsonQuote entry.content)) ++
        ",\n    compressed: " ++ (if entry.compressed then "true" else "false") ++
        "\n  \x7d]"))

/-- `exportEntryOptions` from `generator.ts`: the entry-name union type. -/
def exportEntryOptions (entries : List Entry) : String :=
  "export type EntryOptions = " ++
    String.intercalate " | " (entries.map (fun entry => "\"" ++ entry.name ++ "\"")) ++ ";"

/-- Accumulates, per `extra` key, the insertion-ordered set of `typeof`
strings observed across all entries (the `fieldTypes` record). -/
def collectFieldTypes (entries : List Entry) : List (String × List String) :=
  entries.foldl
    (fun acc entry =>
      match entry.extra with
      | none => acc
      | some extra =>
        extra.foldl
          (fun acc kv =>
            match acc.lookup kv.1 with
            | none => acc ++ [(kv.1, [kv.2.typeName])]
            | some seen =>
              if kv.2.typeName ∈ seen then acc
              else jsUpsert acc kv.1 (seen ++ [kv.2.typeName]))
          acc)
    []

/-- `generateEntryDataInterface` from `generator.ts`. -/
def generateEntryDataInterface (entries : List Entry) : String :=
  let fieldTypes := collectFieldTypes entries
  let extraFields := String.intercalate "\n  "
    (fieldTypes.map (fun kt =>
      let joined := String.intercalate " | " (kt.2.filter (fun t => t ≠ "undefined"))
      kt.1 ++ "?: " ++ (if joined = "" then "any" else joined) ++ ";"))
  "export interface EntryData \x7b\n  " ++
    (if extraFields ≠ "" then extraFields ++ "\n  " else "") ++
    "content: string;\n  compressed: boolean;\n\x7d"

/-- Whether an entry has a non-empty `types` record
(`entry.types && Object.keys(entry.types).length`). -/
def hasTypes (entry : Entry) : Bool :=
  match entry.types with
  | none => false
  | some ts => ts.length != 0

/-- `exportTypeMappings` from `generator.ts`: one interface per entry with a
non-empty placeholder set. -/
def exportTypeMappings (entries : List Entry) : String :=
  String.intercalate "\n\n"
    ((entries.filter hasTypes).map (fun entry =>
      let typeFields := String.intercalate "\n"
        ((entry.types.getD []).map (fun kv => "  " ++ kv.1 ++ ": " ++ kv.2 ++ ";"))
      "export interface " ++ sanitizeTypeName entry.name ++ " \x7b\n" ++ typeFields ++ "\n\x7d"))

/-- `exportEntryTypeMap` from `generator.ts`. -/
def exportEntryTypeMap (entries : List Entry) : String :=
  let mappedEntries := String.intercalate "\n  "
    ((entries.filter hasTypes).map (fun entry =>
      "\"" ++ entry.name ++ "\": " ++ sanitizeTypeName entry.name ++ ";"))
  "export interface EntryMap \x7b\n  " ++
    (if mappedEntries = "" then "  // No entries available" else mappedEntries) ++ "\n\x7d"

/-- `exportIndex` from `generator.ts`: the `entries` table module, with a
type import prepended when unmerged TypeScript. -/
def exportIndex (entries : List Entry) (format : SrcFormat) (merge : Bool)
    (typesFilename : String) : String :=
  let exportImport :=
    "import type \x7b EntryData, EntryOptions \x7d from \x27./" ++ typesFilename ++ "\x27;"
  let exportEntries :=
    "export const entries = new Map" ++
      (if format = .ts then "<EntryOptions, EntryData>" else "") ++
      "([\n  " ++ formatJsEntries entries ++ "\n]);"
  let exportChunks :=
    if !merge && format = .ts then [exportImport, exportEntries] else [exportEntries]
  String.intercalate "\n\n" exportChunks

/-- `exportHelperFunctions` from `generator.ts`: `getEntry`, `getEntries`
and `useEntry` over the generated table, with imports when unmerged. -/
def exportHelperFunctions (format : SrcFormat) (merge : Bool)
    (indexFilename typesFilename : String) : String :=
  let exportImport :=
    (if format = .ts then
      "import type \x7b EntryData, EntryOptions, EntryMap \x7d from \x27./" ++
        typesFilename ++ "\x27;\n"
     else "") ++ "import \x7b entries \x7d from \x27./" ++ indexFilename ++ "\x27;"
  let exportGetEntry :=
    "export function getEntry(key" ++ (if format = .ts then ": EntryOptions" else "") ++ ")" ++
      (if format = .ts then ": EntryData | undefined" else "") ++
      " \x7b\n  return entries.get(key);\n\x7d"
  let exportGetEntries :=
    "export function getEntries(filter" ++
      (if format = .ts then "?: (entry: [EntryOptions, EntryData]) => boolean" else "") ++ ")" ++
      (if format = .ts then ": [EntryOptions, EntryData][]" else "") ++
      " \x7b\n  return filter ? Array.from(entries).filter(filter) : Array.from(entries);\n\x7d"
  let exportUseEntry :=
    "export function useEntry" ++ (if format = .ts then "<K extends keyof EntryMap>" else "") ++
      "(key" ++ (if format = .ts then ": K | EntryOptions" else "") ++ ", options" ++
      (if format = .ts then "?: EntryMap[K]" else "") ++
      ") \x7b\n  /* Add functionality */\n  return entries.get(key);\n\x7d"
  let exportChunks :=
    if !merge then [exportImport, exportGetEntry, exportGetEntries, exportUseEntry]
    else [exportGetEntry, exportGetEntries, exportUseEntry]
  String.intercalate "\n\n" exportChunks

/-- The JSON object one entry contributes to the data artifact:
`{ ...extra, content: data ?? content ?? "", compressed }`. -/
def entryJsonValue (entry : Entry) : List (String × Json) :=
  let spread := (entry.extra.getD []).map (fun kv => (kv.1, kv.2.toJson))
  let withContent := jsUpsert spread "content"
    (.str (match entry.data with | some d => d | none => entry.content))
  jsUpsert withContent "compressed" (.bool entry.compressed)

/-- `exportJsonIndex` from `generator.ts`: the pretty-printed mapping from
entry name to its JSON payload (`Object.fromEntries` keeps the first
occurrence's position on duplicate names, modelled by `jsUpsert`). -/
def exportJsonIndex (entries : List Entry) : String :=
  let mappedEntries := entries.foldl
    (fun acc entry => jsUpsert acc entry.name (.obj (entryJsonValue entry))) []
  jsonStringify (.obj mappedEntries)

/-- One accessor of `exportJsonHelpers`: the shared dynamic-import line. -/
def jsonHelperImportLine (format : SrcFormat) (jsonFilename : String) : String :=
  "  const jsonData = (await import(\"./" ++ jsonFilename ++
    ".json\", \x7b assert: \x7b type: \"json\" \x7d \x7d)).default" ++
    (if format = .ts then " as unknown as [EntryOptions, EntryData][];" else ";")

/-- `exportJsonHelpers` from `generator.ts`: async accessors loading the
JSON artifact. -/
def exportJsonHelpers (format : SrcFormat) (jsonFilename : String) : String :=
  let exportGetEntry :=
    "export async function getEntry(key" ++ (if format = .ts then ": EntryOptions" else "") ++
      ")" ++ (if format = .ts then ": Promise<EntryData | undefined>" else "") ++ " \x7b\n" ++
      jsonHelperImportLine format jsonFilename ++
      "\n  return jsonData.find(entry => entry[0] === key)?.[1];\n\x7d"
  let exportGetEntries :=
    "export async function getEntries(filter" ++
      (if format = .ts then "?: (entry: [EntryOptions, EntryData]) => boolean" else "") ++
      ")" ++ (if format = .ts then ": Promise<[EntryOptions, EntryData][]>" else "") ++
      " \x7b\n" ++ jsonHelperImportLine format jsonFilename ++
      "\n  return filter ? jsonData.filter(filter) : jsonData;\n\x7d"
  let exportUseEntry :=
    "export async function useEntry" ++
      (if format = .ts then "<K extends keyof EntryMap>" else "") ++ "(key" ++
      (if format = .ts then ": K | EntryOptions" else "") ++ ", options" ++
      (if format = .ts then "?: EntryMap[K]" else "") ++ ") \x7b\n" ++
      jsonHelperImportLine format jsonFilename ++
      "\n  /* Add functionality */\n  return jsonData.find(entry => entry[0] === key)?.[1];\n\x7d"
  String.intercalate "\n\n" [exportGetEntry, exportGetEntries, exportUseEntry]

/-- The four TypeScript type-declaration chunks that `generate` prepends
(`exportEntryOptions`, `generateEntryDataInterface`, `exportTypeMappings`,
`exportEntryTypeMap`). -/
def typeChunks (entries : List Entry) : List String :=
  [exportEntryOptions entries, generateEntryDataInterface entries,
   exportTypeMappings entries, exportEntryTypeMap entries]

/-- `generate` from `generator.ts`. The `js`/`ts` branches are factored
through `SrcFormat` since the source narrows `exportFormat` away from
`"json"` there. -/
def generate (entries : List Entry) (options : GeneratorOptions) : List GeneratorFile :=
  let indexFilename := options.indexFilename.getD "index"
  let typesFilename := options.typesFilename.getD "index.d"
  let helpersFilename := options.helpersFilename.getD "helpers"
  let jsonFilename := options.jsonFilename.getD "data"
  let exportHelpers := options.exportHelpers.getD true
  let exportFormat := options.exportFormat.getD .ts
  let exportHelpersFormat := options.exportHelpersFormat.getD .ts
  let mergeFiles := options.mergeFiles.getD false
  let srcBranch := fun (fmt : SrcFormat) =>
    if mergeFiles then
      let exportChunks :=
        (if fmt = .ts then typeChunks entries else []) ++
          [exportIndex entries fmt mergeFiles typesFilename] ++
          (if exportHelpers then
            [exportHelperFunctions exportHelpersFormat mergeFiles indexFilename typesFilename]
           else [])
      [⟨indexFilename, fmt.str, String.intercalate "\n\n" exportChunks⟩]
    else
      [(⟨indexFilename, fmt.str, exportIndex entries fmt mergeFiles typesFilename⟩ :
          GeneratorFile)] ++
        (if fmt = .ts then
          [⟨typesFilename, fmt.str, String.intercalate "\n\n" (typeChunks entries)⟩]
         else []) ++
        (if exportHelpers then
          [(⟨helpersFilename, exportHelpersFormat.str,
             exportHelperFunctions exportHelpersFormat mergeFiles indexFilename
               typesFilename⟩ : GeneratorFile)]
         else [])
  match exportFormat with
  | .json =>
    [(⟨jsonFilename, "json", exportJsonIndex entries⟩ : GeneratorFile)] ++
      (if exportHelpers then
        [(⟨helpersFilename, exportHelpersFormat.str,
           if exportHelpersFormat = .ts then
             String.intercalate "\n\n"
               (typeChunks entries ++ [exportJsonHelpers exportHelpersFormat jsonFilename])
           else exportJsonHelpers exportHelpersFormat jsonFilename⟩ : GeneratorFile)]
       else [])
  | .js => srcBranch .js
  | .ts => srcBranch .ts

/-! ### Analyzer (`analyzer.ts`)

The file read is an external collaborator: the pure core `analyze` below
takes the file's path and its already-read content. The placeholder regex
`/\{\{\s*(\w+)\s*\}\}|\{(\w+)\}/g` is embedded as a left-to-right scanner
that at each position tries the whitespace-tolerant double-brace
alternative first, then the single-brace alternative. -/

/-- JavaScript `\s` for the character classes used by the placeholder regex
and `String.trim` (ASCII whitespace and NBSP; the rare exotic Unicode
space characters do not occur in the repository's data). -/
def jsSpace (c : Char) : Bool :=
  c = ' ' || c = '\t' || c = '\n' || c = '\r' || c = '\x0b' || c = '\x0c' || c = '\xa0'

/-- Match `\{\{\s*(\w+)\s*\}\}` at the head of `l`; returns the match length. -/
def tryBrace2 : List Char → Option Nat
  | '\x7b' :: '\x7b' :: r =>
    let s1 := (r.takeWhile jsSpace).length
    let w := ((r.drop s1).takeWhile isWordChar).length
    if w = 0 then none
    else
      let s2 := ((r.drop (s1 + w)).takeWhile jsSpace).length
      match r.drop (s1 + w + s2) with
      | '\x7d' :: '\x7d' :: _ => some (2 + s1 + w + s2 + 2)
      | _ => none
  | _ => none

/-- Match `\{(\w+)\}` at the head of `l`; returns the match length. -/
def tryBrace1 : List Char → Option Nat
  | '\x7b' :: r =>
    let w := (r.takeWhile isWordChar).length
    if w = 0 then none
    else
      match r.drop w with
      | '\x7d' :: _ => some (1 + w + 1)
      | _ => none
  | _ => none

/-- The regex alternation: double-brace alternative first. -/
def tryMatchAt (l : List Char) : Option Nat :=
  match tryBrace2 l with
  | some n => some n
  | none => tryBrace1 l

theorem tryBrace2_pos {l : List Char} {n : Nat} (h : tryBrace2 l = some n) : 0 < n := by
  unfold tryBrace2 at h
  split at h <;> simp_all
  obtain ⟨-, h⟩ := h
  split at h <;> simp_all <;> omega

theorem tryBrace1_pos {l : List Char} {n : Nat} (h : tryBrace1 l = some n) : 0 < n := by
  unfold tryBrace1 at h
  split at h <;> simp_all
  obtain ⟨-, h⟩ := h
  split at h <;> simp_all <;> omega

theorem tryMatchAt_pos {l : List Char} {n : Nat} (h : tryMatchAt l = some n) : 0 < n := by
  unfold tryMatchAt at h
  cases hb : tryBrace2 l with
  | some m =>
    simp only [hb] at h
    cases h
    exact tryBrace2_pos hb
  | none =>
    simp only [hb] at h
    exact tryBrace1_pos h

/-- `content.match(regex)` with the `g` flag: scan left to right, collecting
non-overlapping matches and resuming after each match's end. -/
def scanMatches (l : List Char) : List (List Char) :=
  match l with
  | [] => []
  | c :: rest =>
    match h : tryMatchAt (c :: rest) with
    | some n => (c :: rest).take n :: scanMatches ((c :: rest).drop n)
    | none => scanMatches rest
termination_by l.length
decreasing_by
  · have := tryMatchAt_pos h
    simp only [List.length_drop, List.length_cons]
    omega
  · simp

/-- `match.replace(/\{\{|\}\}|\{|\}/g, "").trim()`: strip all braces, then
trim surrounding whitespace. -/
def stripBracesTrim (m : List Char) : String :=
  let noBraces := m.filter (fun c => c ≠ '\x7b' && c ≠ '\x7d')
  String.mk ((noBraces.dropWhile jsSpace).reverse.dropWhile jsSpace).reverse

/-- The `matches.reduce` accumulation: distinct identifiers, in first-match
order, each mapped to `"string"`. -/
def extractVars (content : String) : List (String × String) :=
  (scanMatches content.toList).foldl (fun acc m => jsUpsert acc (stripBracesTrim m) "string") []

/-- `node:path` `extname(file)` followed by the leading-dot strip the source
applies: the characters after the last dot of the basename, empty when the
basename has no dot or starts with its only dot. -/
def fileExt (filepath : String) : String :=
  let base := ((filepath.splitOn "/").getLastD "").toList
  let rev := base.reverse
  let i := rev.findIdx (fun c => c = '.')
  if i < rev.length && i + 1 < rev.length then String.mk (rev.take i).reverse else ""

/-- The pure core of `analyze` from `analyzer.ts`, given the content that
the (external) file read returned. -/
def analyze (filepath content : String) (genTypes : Bool) : Entry :=
  { name := (((filepath.splitOn "/").getLastD "").splitOn ".").headD ""
    ext := fileExt filepath
    path := filepath
    content := content
    types := if genTypes then some (extractVars content) else none
    compressed := false
    data := none
    extra := none }

/-! ### Compression boundary (`compression.ts`, base64 variant)

`pako.deflate`/`pako.inflate` are the opaque byte-level capability; the
base64 encoding (`btoa(String.fromCharCode(...))` / `atob` + `charCodeAt`)
and the UTF-8 text boundary (pako's string input conversion and
`TextDecoder("utf-8")`) are embedded concretely. Bytes are `Nat`s below 256. -/

/-- The base64 alphabet. -/
def b64Chars : List Char :=
  "ABCDEFGHIJKLMNOPQRSTUVWXYZabcdefghijklmnopqrstuvwxyz0123456789+/".toList

/-- The base64 character of a six-bit group. -/
def encodeB64Char (n : Nat) : Char := b64Chars.getD n 'A'

/-- The six-bit group of a base64 character. -/
def decodeB64Char (c : Char) : Nat := b64Chars.findIdx (fun x => x = c)

/-- `btoa` on a byte list: three bytes become four alphabet characters,
with `=` padding for a final group of one or two bytes. -/
def b64Encode : List Nat → List Char
  | [] => []
  | [b0] => [encodeB64Char (b0 / 4), encodeB64Char (b0 % 4 * 16), '=', '=']
  | [b0, b1] =>
    [encodeB64Char (b0 / 4), encodeB64Char (b0 % 4 * 16 + b1 / 16),
     encodeB64Char (b1 % 16 * 4), '=']
  | b0 :: b1 :: b2 :: rest =>
    encodeB64Char (b0 / 4) :: encodeB64Char (b0 % 4 * 16 + b1 / 16) ::
      encodeB64Char (b1 % 16 * 4 + b2 / 64) :: encodeB64Char (b2 % 64) :: b64Encode rest

/-- `atob` + per-character `charCodeAt`: four characters back to three
bytes, fewer at `=` padding. -/
def b64Decode : List Char → List Nat
  | c0 :: c1 :: c2 :: c3 :: rest =>
    let s0 := decodeB64Char c0
    let s1 := decodeB64Char c1
    if c2 = '=' then [s0 * 4 + s1 / 16]
    else
      let s2 := decodeB64Char c2
      if c3 = '=' then [s0 * 4 + s1 / 16, s1 % 16 * 16 + s2 / 4]
      else
        (s0 * 4 + s1 / 16) :: (s1 % 16 * 16 + s2 / 4) :: (s2 % 4 * 64 + decodeB64Char c3) ::
          b64Decode rest
  | _ => []

/-- UTF-8 bytes of one scalar value. -/
def utf8EncodeChar (c : Char) : List Nat :=
  let v := c.toNat
  if v < 128 then [v]
  else if v < 2048 then [192 + v / 64, 128 + v % 64]
  else if v < 65536 then [224 + v / 4096, 128 + v / 64 % 64, 128 + v % 64]
  else [240 + v / 262144, 128 + v / 4096 % 64, 128 + v / 64 % 64, 128 + v % 64]

/-- UTF-8 bytes of a character list (pako's string-input conversion). -/
def utf8Encode : List Char → List Nat
  | [] => []
  | c :: cs => utf8EncodeChar c ++ utf8Encode cs

/-- The byte length of a UTF-8 sequence, from its leading byte (stray
continuation bytes consume one byte). -/
def utf8SeqLen (b0 : Nat) : Nat :=
  if b0 < 192 then 1 else if b0 < 224 then 2 else if b0 < 240 then 3 else 4

/-- The scalar value of one UTF-8 sequence (well-formed streams; anything
else, including truncated sequences, yields U+FFFD). -/
def utf8DecodeOne : List Nat → Char
  | [b0] => if b0 < 128 then Char.ofNat b0 else Char.ofNat 65533
  | [b0, b1] => Char.ofNat ((b0 - 192) * 64 + (b1 - 128))
  | [b0, b1, b2] => Char.ofNat ((b0 - 224) * 4096 + (b1 - 128) * 64 + (b2 - 128))
  | [b0, b1, b2, b3] =>
    Char.ofNat ((b0 - 240) * 262144 + (b1 - 128) * 4096 + (b2 - 128) * 64 + (b3 - 128))
  | _ => Char.ofNat 65533

/-- `TextDecoder("utf-8")` on well-formed streams: reads one scalar value
per leading byte. -/
def utf8Decode : List Nat → List Char
  | [] => []
  | b0 :: rest =>
    utf8DecodeOne ((b0 :: rest).take (utf8SeqLen b0)) ::
      utf8Decode (rest.drop (utf8SeqLen b0 - 1))
termination_by bs => bs.length
decreasing_by
  simp only [List.length_cons, List.length_drop]
  omega

/-- `compressor` from `compression.ts`: deflate (the opaque capability
`comp`, applied to the UTF-8 bytes of the input string as pako does), then
base64-encode the resulting bytes. -/
def compressor (comp : List Nat → List Nat) (data : String) : String :=
  String.mk (b64Encode (comp (utf8Encode data.toList)))

/-- `decompressor` from `compression.ts`: base64-decode to bytes, inflate
(the opaque capability `decomp`), then UTF-8-decode the result. -/
def decompressor (decomp : List Nat → List Nat) (data : String) : String :=
  String.mk (utf8Decode (decomp (b64Decode data.toList)))

/-! ### Orchestrator (`index.ts`)

The `AetherBytes` class state is `entries` plus the `files` log; `emit`
becomes an accumulated event list. Filesystem resolution and writes are
external collaborators: `load` receives the already-resolved
`(filepath, content)` pairs, and `generate` records successful writes. -/

/-- One emitted notification (`EventTypes` from `events.ts`; the optional
opaque `error` cause payload is not modelled). -/
inductive Event where
  | analyzed (message : String) (entry : Entry)
  | loaded (message : String) (files : Nat)
  | compression (message : String) (data : String)
  | generator (message : String) (file : GeneratorFile)
  | error (message : String)
  | complete (message : String) (output : String)
deriving DecidableEq, Repr

/-- The mutable fields of the `AetherBytes` class. -/
structure ABState where
  entries : List Entry
  files : List GeneratorFile
deriving DecidableEq, Repr

/-- The body of the `compress` loop: `comp` is the compression capability,
`.error` meaning the call threw. -/
def compressLoop (comp : String → Except Unit String) : List Entry → List Entry × List Event
  | [] => ([], [])
  | entry :: rest =>
    let step := compressLoop comp rest
    match comp entry.content with
    | .ok compressedContent =>
      let newEntry := { entry with data := some compressedContent, compressed := true }
      (newEntry :: step.1,
        .compression ("Compressed file " ++ newEntry.path) compressedContent :: step.2)
    | .error _ => (step.1, .error ("Error compressing file " ++ entry.path) :: step.2)

/-- `AetherBytes.compress`: runs the loop, stores the surviving entries and
returns them. -/
def compress (st : ABState) (comp : String → Except Unit String) :
    ABState × List Entry × List Event :=
  let step := compressLoop comp st.entries
  ({ st with entries := step.1 }, step.1, step.2)

/-- `Partial<Entry>`: a field set to `some v` is a present key (`v` itself
is an `Option` for Entry's own optional fields, so `some none` is the key
present with value `undefined`). -/
structure EntryPatch where
  name : Option String := none
  ext : Option String := none
  path : Option String := none
  content : Option String := none
  types : Option (Option (List (String × String))) := none
  compressed : Option Bool := none
  data : Option (Option String) := none
  extra : Option (Option (List (String × ExtraVal))) := none
deriving DecidableEq, Repr

/-- `Object.keys(patch).length`. -/
def EntryPatch.keyCount (p : EntryPatch) : Nat :=
  (if p.name.isSome then 1 else 0) + (if p.ext.isSome then 1 else 0) +
    (if p.path.isSome then 1 else 0) + (if p.content.isSome then 1 else 0) +
    (if p.types.isSome then 1 else 0) + (if p.compressed.isSome then 1 else 0) +
    (if p.data.isSome then 1 else 0) + (if p.extra.isSome then 1 else 0)

/-- `{ ...entry, ...patch }`. -/
def applyPatch (entry : Entry) (p : EntryPatch) : Entry :=
  { name := p.name.getD entry.name
    ext := p.ext.getD entry.ext
    path := p.path.getD entry.path
    content := p.content.getD entry.content
    types := p.types.getD entry.types
    compressed := p.compressed.getD entry.compressed
    data := p.data.getD entry.data
    extra := p.extra.getD entry.extra }

/-- The body of the `modifyEntries` loop. -/
def modifyLoop (callback : Entry → Option EntryPatch) : List Entry → List Entry
  | [] => []
  | entry :: rest =>
    match callback entry with
    | some updatedEntry =>
      if updatedEntry.keyCount > 0 then
        applyPatch entry updatedEntry :: modifyLoop callback rest
      else modifyLoop callback rest
    | none => modifyLoop callback rest

/-- `AetherBytes.modifyEntries`. -/
def modifyEntries (st : ABState) (callback : Entry → Option EntryPatch) :
    ABState × List Entry :=
  let files := modifyLoop callback st.entries
  ({ st with entries := files }, files)

/-- The body of the `addExtra` loop: `{ ...entry, extra }`. -/
def addExtraLoop (callback : Entry → Option (List (String × ExtraVal))) :
    List Entry → List Entry
  | [] => []
  | entry :: rest =>
    match callback entry with
    | some extra =>
      if extra.length > 0 then
        { entry with extra := some extra } :: addExtraLoop callback rest
      else addExtraLoop callback rest
    | none => addExtraLoop callback rest

/-- `AetherBytes.addExtra`. -/
def addExtra (st : ABState) (callback : Entry → Option (List (String × ExtraVal))) :
    ABState × List Entry :=
  let files := addExtraLoop callback st.entries
  ({ st with entries := files }, files)

/-- `LoadOptions` from `index.ts`. -/
structure LoadOptions where
  includeExt : Option (List String) := none
  excludeExt : Option (List String) := none
  genTypes : Option Bool := none
deriving DecidableEq, Repr

/-- `ext.replace(/^\./, "")`: strip one leading dot. -/
def normalizeExt (ext : String) : String :=
  match ext.toList with
  | '.' :: rest => String.mk rest
  | _ => ext

/-- The per-file predicate of the extension-filtering `files.filter`. -/
def extFilterKeep (options : LoadOptions) (file : String) : Bool :=
  let ext := fileExt file
  let inclOk :=
    match options.includeExt with
    | some includeExt => (includeExt.map normalizeExt).contains ext
    | none => true
  let exclOk :=
    match options.excludeExt with
    | some excludeExt => !(excludeExt.map normalizeExt).contains ext
    | none => true
  inclOk && exclOk

/-- The analyze-and-push loop of `load`: each file contributes an
`analyzed` event (from the `analyze` wrapper) and a `loaded` event carrying
the total filtered file count. -/
def loadLoop (genTypes : Bool) (total : Nat) : List (String × String) → List Entry × List Event
  | [] => ([], [])
  | (filepath, content) :: rest =>
    let entry := analyze filepath content genTypes
    let step := loadLoop genTypes total rest
    (entry :: step.1,
      .analyzed ("Analyzed file " ++ filepath) entry ::
        .loaded ("Loaded file " ++ filepath) total :: step.2)

/-- The filter-and-analyze tail of `load`, after the conflict validation. -/
def loadRest (st : ABState) (files : List (String × String)) (options : LoadOptions) :
    ABState × List Entry × List Event :=
  let filtered := files.filter (fun fc => extFilterKeep options fc.1)
  let step := loadLoop (options.genTypes.getD true) filtered.length filtered
  ({ st with entries := st.entries ++ step.1 }, st.entries ++ step.1, step.2)

/-- `AetherBytes.load`, on the already-resolved `(filepath, content)` list:
validates the include/exclude filters, then filters, analyzes and appends. -/
def load (st : ABState) (files : List (String × String)) (options : LoadOptions) :
    ABState × List Entry × List Event :=
  match options.includeExt, options.excludeExt with
  | some includeExt, some excludeExt =>
    let includeExtNormalized := includeExt.map normalizeExt
    let excludeExtNormalized := excludeExt.map normalizeExt
    let intersection :=
      includeExtNormalized.filter (fun ext => excludeExtNormalized.contains ext)
    if intersection.length > 0 then
      (st, [],
        [.error ("Conflicting include and exclude extensions: " ++
          String.intercalate ", " intersection)])
    else loadRest st files options
  | _, _ => loadRest st files options

/-- The `localeCompare`-based sort predicate, embedded as string order. -/
def nameLe (a b : Entry) : Bool := decide (a.name ≤ b.name)

/-- `AetherBytes.generate`: refuse an empty collection, otherwise sort the
stored entries by name (in place: the stored collection becomes the sorted
one), run the code generator, and persist each artifact (writes are the
out-of-scope collaborator and succeed here), logging it in `files` and
emitting a `generator` event per artifact. -/
def generateTo (st : ABState) (destination : String) (options : GeneratorOptions) :
    ABState × Option (List GeneratorFile) × List Event :=
  if st.entries.length = 0 then (st, none, [.error "No entries to write"])
  else
    let sortedEntries := st.entries.mergeSort nameLe
    let files := generate sortedEntries options
    ({ st with entries := sortedEntries, files := st.files ++ files },
      some files,
      files.map (fun file =>
        .generator ("Generated file " ++ destination ++ "/" ++ file.filename ++ "." ++ file.ext)
          file))

/-! ### Sample fixtures used by witnesses and counterexamples -/

/-- A minimal analyzed entry. -/
def sampleEntry : Entry :=
  { name := "hello", ext := "md", path := "t/hello.md", content := "Hi!",
    types := none, compressed := false, data := none, extra := none }

/-- An entry that already carries `extra` metadata. -/
def sampleExtraEntry : Entry :=
  { sampleEntry with name := "doc", path := "t/doc.md", extra := some [("a", ExtraVal.str "x")] }

/-- An entry with encoded data and `extra`, for the JSON artifact shape. -/
def sampleJsonEntry : Entry :=
  { sampleEntry with
    name := "page", data := some "QUJD", compressed := true,
    extra := some [("cat", ExtraVal.num 5)] }

/-! ### Helper lemmas -/

theorem jsUpsert_of_not_mem {α : Type} (l : List (String × α)) (k : String) (v : α)
    (h : k ∉ l.map Prod.fst) : jsUpsert l k v = l ++ [(k, v)] := by
  induction l with
  | nil => rfl
  | cons kv rest ih =>
    obtain ⟨k1, v1⟩ := kv
    simp only [List.map_cons, List.mem_cons, not_or] at h
    simp only [jsUpsert, if_neg (fun hh : k1 = k => h.1 hh.symm), List.cons_append,
      List.cons.injEq, true_and]
    exact ih h.2

theorem entryJsonValue_eq (e : Entry)
    (hc : "content" ∉ (e.extra.getD []).map Prod.fst)
    (hk : "compressed" ∉ (e.extra.getD []).map Prod.fst) :
    entryJsonValue e = (e.extra.getD []).map (fun kv => (kv.1, kv.2.toJson)) ++
      [("content", Json.str (match e.data with | some d => d | none => e.content)),
       ("compressed", Json.bool e.compressed)] := by
  dsimp only [entryJsonValue]
  have hspread : "content" ∉
      (List.map (fun kv => (kv.1, kv.2.toJson)) (e.extra.getD [])).map Prod.fst := by
    intro hmem
    exact hc (by simpa [List.map_map, Function.comp] using hmem)
  rw [jsUpsert_of_not_mem _ _ _ hspread]
  have h2 : "compressed" ∉
      ((List.map (fun kv => (kv.1, kv.2.toJson)) (e.extra.getD [])) ++
        [("content", Json.str (match e.data with | some d => d | none => e.content))]).map
        Prod.fst := by
    simp only [List.map_append, List.mem_append, not_or]
    constructor
    · intro hmem
      exact hk (by simpa [List.map_map, Function.comp] using hmem)
    · simp
  rw [jsUpsert_of_not_mem _ _ _ h2, List.append_assoc]
  rfl

theorem addExtraLoop_eq_filterMap (callback : Entry → Option (List (String × ExtraVal)))
    (l : List Entry) :
    addExtraLoop callback l = l.filterMap (fun entry =>
      match callback entry with
      | some extra =>
        if extra.length > 0 then some { entry with extra := some extra } else none
      | none => none) := by
  induction l with
  | nil => rfl
  | cons entry rest ih =>
    simp only [addExtraLoop, List.filterMap_cons]
    cases callback entry with
    | none => exact ih
    | some extra =>
      by_cases h : extra.length > 0
      · simp [h, ih]
      · simp [h, ih]

theorem modifyLoop_eq_filterMap (callback : Entry → Option EntryPatch) (l : List Entry) :
    modifyLoop callback l = l.filterMap (fun entry =>
      match callback entry with
      | some updatedEntry =>
        if updatedEntry.keyCount > 0 then some (applyPatch entry updatedEntry) else none
      | none => none) := by
  induction l with
  | nil => rfl
  | cons entry rest ih =>
    simp only [modifyLoop, List.filterMap_cons]
    cases callback entry with
    | none => exact ih
    | some updatedEntry =>
      by_cases h : updatedEntry.keyCount > 0
      · simp [h, ih]
      · simp [h, ih]

theorem compressLoop_eq (comp : String → Except Unit String) (l : List Entry) :
    compressLoop comp l =
      (l.filterMap (fun entry =>
        match comp entry.content with
        | .ok d => some { entry with data := some d, compressed := true }
        | .error _ => none),
       l.map (fun entry =>
        match comp entry.content with
        | .ok d => Event.compression ("Compressed file " ++ entry.path) d
        | .error _ => Event.error ("Error compressing file " ++ entry.path))) := by
  induction l with
  | nil => rfl
  | cons entry rest ih =>
    simp only [compressLoop, ih, List.filterMap_cons, List.map_cons]
    cases comp entry.content with
    | ok d => rfl
    | error _ => rfl

/-! ### Claims -/

/-- Claim C1: for every entry list, `generate` with `exportFormat "ts"` and
`mergeFiles true` returns exactly one artifact whether or not
`exportHelpers` is set; with `mergeFiles false` and `exportHelpers true` it
returns exactly three artifacts for `"ts"` (index, types, helpers) and
exactly two for `"js"` (index, helpers). -/
theorem generate_merge_invariant (entries : List Entry) (o : Option Bool) :
    (generate entries
        { exportFormat := some .ts, mergeFiles := some true, exportHelpers := o }).length = 1
      ∧ (generate entries
          { exportFormat := some .ts, mergeFiles := some false,
            exportHelpers := some true }).map GeneratorFile.filename =
        ["index", "index.d", "helpers"]
      ∧ (generate entries
          { exportFormat := some .js, mergeFiles := some false,
            exportHelpers := some true }).map GeneratorFile.filename =
        ["index", "helpers"] :=
  ⟨rfl, rfl, rfl⟩

/-- Claim C1 witness at a concrete entry list and an unset `exportHelpers`. -/
theorem generate_merge_invariant_witness :
    (generate [sampleEntry]
        { exportFormat := some .ts, mergeFiles := some true, exportHelpers := none }).length =
      1 :=
  (generate_merge_invariant [sampleEntry] none).1

/-- Claim C2 counterexample: with `{exportFormat := "json"}` and the
defaults (`exportHelpers` defaults to `true`), `generate` on one entry
produces two artifacts, not a single one. -/
theorem generate_json_counterexample :
    (generate [sampleJsonEntry] { exportFormat := some .json }).length = 2 := rfl

/-- Claim C2 (amended): for a one-entry list and `{exportFormat: "json"}`,
`generate` produces the JSON data artifact first (and a helpers artifact,
since `exportHelpers` defaults to true); the data artifact's content is the
pretty-printed JSON mapping whose single top-level key is the entry's name,
combining the entry's extra fields with sub-keys `content` (the encoded
data if present, else the raw content) and `compressed`. -/
theorem generate_json_shape (e : Entry)
    (hc : "content" ∉ (e.extra.getD []).map Prod.fst)
    (hk : "compressed" ∉ (e.extra.getD []).map Prod.fst) :
    generate [e] { exportFormat := some .json } =
      [⟨"data", "json",
        jsonStringify (Json.obj [(e.name,
          Json.obj ((e.extra.getD []).map (fun kv => (kv.1, kv.2.toJson)) ++
            [("content", Json.str (match e.data with | some d => d | none => e.content)),
             ("compressed", Json.bool e.compressed)]))])⟩,
       ⟨"helpers", "ts",
        String.intercalate "\n\n" (typeChunks [e] ++ [exportJsonHelpers .ts "data"])⟩] := by
  have h := entryJsonValue_eq e hc hk
  simp only [generate, exportJsonIndex, Option.getD, List.foldl, jsUpsert, h]
  rfl

/-- Claim C2 witness at a concrete entry. -/
theorem generate_json_shape_witness :
    generate [sampleJsonEntry] { exportFormat := some .json } =
      [⟨"data", "json",
        jsonStringify (Json.obj [(sampleJsonEntry.name,
          Json.obj ((sampleJsonEntry.extra.getD []).map (fun kv => (kv.1, kv.2.toJson)) ++
            [("content",
              Json.str (match sampleJsonEntry.data with
                        | some d => d
                        | none => sampleJsonEntry.content)),
             ("compressed", Json.bool sampleJsonEntry.compressed)]))])⟩,
       ⟨"helpers", "ts",
        String.intercalate "\n\n"
          (typeChunks [sampleJsonEntry] ++ [exportJsonHelpers .ts "data"])⟩] :=
  generate_json_shape sampleJsonEntry (by decide) (by decide)

/-- Claim C3 counterexample: `addExtra` does not merge into the existing
`extra` — the returned mapping replaces it (the pre-existing key `"a"` is
lost) — and a callback returning an empty mapping drops the entry even
though it returned something. -/
theorem addExtra_counterexample :
    ((addExtra ⟨[sampleExtraEntry], []⟩ (fun _ => some [("b", ExtraVal.str "y")])).2 =
        [{ sampleExtraEntry with extra := some [("b", ExtraVal.str "y")] }])
      ∧ (((addExtra ⟨[sampleExtraEntry], []⟩
            (fun _ => some [("b", ExtraVal.str "y")])).2.head?.bind Entry.extra).getD
          []).lookup "a" = none
      ∧ (addExtra ⟨[sampleExtraEntry], []⟩ (fun _ => some ([] : List (String × ExtraVal)))).2 =
        [] := by
  refine ⟨rfl, rfl, rfl⟩

/-- Claim C3 (amended): `addExtra` drops an entry exactly when its callback
returns nothing or an empty mapping; every retained entry has its `extra`
replaced by the returned mapping (pre-existing `extra` keys are not
preserved), with all other fields unchanged, in input order; the result is
stored as the new collection. -/
theorem addExtra_spec (st : ABState) (callback : Entry → Option (List (String × ExtraVal))) :
    (addExtra st callback).2 = st.entries.filterMap (fun entry =>
        match callback entry with
        | some extra =>
          if extra.length > 0 then some { entry with extra := some extra } else none
        | none => none)
      ∧ (addExtra st callback).1.entries = (addExtra st callback).2
      ∧ (addExtra st callback).1.files = st.files :=
  ⟨addExtraLoop_eq_filterMap callback st.entries, rfl, rfl⟩

/-- Claim C3 witness at a concrete state and callback. -/
theorem addExtra_spec_witness :
    (addExtra ⟨[sampleExtraEntry], []⟩ (fun _ => some [("k", ExtraVal.bool true)])).2 =
      [{ sampleExtraEntry with extra := some [("k", ExtraVal.bool true)] }] := by
  have h := (addExtra_spec ⟨[sampleExtraEntry], []⟩
    (fun _ => some [("k", ExtraVal.bool true)])).1
  simpa using h

/-- Claim C4 counterexample: a mutator returning an empty patch (a partial
patch, not "nothing") still causes the entry to be dropped. -/
theorem modifyEntries_counterexample :
    (modifyEntries ⟨[sampleEntry], []⟩ (fun _ => some {})).2 = [] := rfl

/-- Claim C4 (amended): `modifyEntries` returns, in order, exactly those
entries whose mutator returned a patch with at least one key, each equal to
the original entry with the patch's present fields applied on top; an entry
is dropped precisely when its mutator returned nothing or an empty patch.
The result is stored as the new collection. -/
theorem modifyEntries_spec (st : ABState) (callback : Entry → Option EntryPatch) :
    (modifyEntries st callback).2 = st.entries.filterMap (fun entry =>
        match callback entry with
        | some updatedEntry =>
          if updatedEntry.keyCount > 0 then some (applyPatch entry updatedEntry) else none
        | none => none)
      ∧ (modifyEntries st callback).1.entries = (modifyEntries st callback).2
      ∧ (modifyEntries st callback).1.files = st.files :=
  ⟨modifyLoop_eq_filterMap callback st.entries, rfl, rfl⟩

/-- Claim C4 witness at a concrete state and mutator. -/
theorem modifyEntries_spec_witness :
    (modifyEntries ⟨[sampleEntry], []⟩ (fun _ => some { name := some "renamed" })).2 =
      [{ sampleEntry with name := "renamed" }] := by
  have h := (modifyEntries_spec ⟨[sampleEntry], []⟩
    (fun _ => some { name := some "renamed" })).1
  simpa [applyPatch] using h

/-- Claim C5: `compress` returns (and stores) one new entry per input entry
whose compression succeeded, in input order, with `data` set to the result
and `compressed` true and every other field unchanged; a failing entry is
omitted and reported with an `error` event while the rest of the batch is
still processed (each input entry yields exactly one event). -/
theorem compress_spec (st : ABState) (comp : String → Except Unit String) :
    (compress st comp).2.1 = st.entries.filterMap (fun entry =>
        match comp entry.content with
        | .ok d => some { entry with data := some d, compressed := true }
        | .error _ => none)
      ∧ (compress st comp).1.entries = (compress st comp).2.1
      ∧ (compress st comp).2.2 = st.entries.map (fun entry =>
        match comp entry.content with
        | .ok d => Event.compression ("Compressed file " ++ entry.path) d
        | .error _ => Event.error ("Error compressing file " ++ entry.path)) := by
  have h := compressLoop_eq comp st.entries
  exact ⟨by simp [compress, h], rfl, by simp [compress, h]⟩

/-- Claim C5 witness: one succeeding and one failing entry. -/
theorem compress_spec_witness :
    (compress ⟨[sampleEntry, sampleExtraEntry], []⟩
        (fun c => if c = "Hi!" then .ok "ZZZ" else .error ())).2.1 =
      [{ sampleEntry with data := some "ZZZ", compressed := true },
       { sampleExtraEntry with data := some "ZZZ", compressed := true }] := by
  have h := (compress_spec ⟨[sampleEntry, sampleExtraEntry], []⟩
    (fun c => if c = "Hi!" then .ok "ZZZ" else .error ())).1
  simpa [sampleEntry, sampleExtraEntry] using h

/-- Claim C7: `generate` on an empty stored collection emits one error
notification, produces no artifacts, writes nothing, and returns with the
state unchanged. -/
theorem generateTo_empty (st : ABState) (destination : String) (options : GeneratorOptions)
    (h : st.entries = []) :
    generateTo st destination options = (st, none, [Event.error "No entries to write"]) := by
  simp [generateTo, h]

/-- Claim C7 witness at the empty state. -/
theorem generateTo_empty_witness :
    generateTo ⟨[], []⟩ "out" {} = (⟨[], []⟩, none, [Event.error "No entries to write"]) :=
  generateTo_empty ⟨[], []⟩ "out" {} rfl

/-- Claim C6: when some extension, after stripping a leading dot, appears in
both the include and exclude lists, `load` analyzes zero files, emits
exactly one error notification whose message names the conflicting
extension (it lists the whole normalized intersection, which contains it),
and returns an empty result with the state unchanged. -/
theorem load_conflict (st : ABState) (files : List (String × String))
    (inc exc : List String) (g : Option Bool) (e : String)
    (h1 : e ∈ inc.map normalizeExt) (h2 : e ∈ exc.map normalizeExt) :
    load st files { includeExt := some inc, excludeExt := some exc, genTypes := g } =
        (st, [], [Event.error ("Conflicting include and exclude extensions: " ++
          String.intercalate ", "
            ((inc.map normalizeExt).filter (fun ext => (exc.map normalizeExt).contains ext)))])
      ∧ e ∈ (inc.map normalizeExt).filter (fun ext => (exc.map normalizeExt).contains ext) := by
  have he : e ∈ (inc.map normalizeExt).filter (fun ext => (exc.map normalizeExt).contains ext) :=
    List.mem_filter.mpr ⟨h1, by simpa using h2⟩
  refine ⟨?_, he⟩
  have hlen : ((inc.map normalizeExt).filter
      (fun ext => (exc.map normalizeExt).contains ext)).length > 0 :=
    List.length_pos.mpr (List.ne_nil_of_mem he)
  dsimp only [load]
  rw [if_pos hlen]

/-- Claim C6 witness: `includeExt=["md"]`, `excludeExt=[".md"]` on a
non-empty source. -/
theorem load_conflict_witness :
    load ⟨[], []⟩ [("t/a.md", "x")]
        { includeExt := some ["md"], excludeExt := some [".md"], genTypes := none } =
      (⟨[], []⟩, [],
        [Event.error "Conflicting include and exclude extensions: md"]) := by
  have h := (load_conflict ⟨[], []⟩ [("t/a.md", "x")] ["md"] [".md"] none "md" (by decide)
    (by decide)).1
  rw [h]
  rfl

/-! Helper lemmas for the placeholder-scan invariants. -/

theorem mem_jsUpsert {α : Type} {l : List (String × α)} {k : String} {v : α} {kv : String × α}
    (h : kv ∈ jsUpsert l k v) : kv ∈ l ∨ kv = (k, v) := by
  induction l with
  | nil => simpa [jsUpsert] using h
  | cons hd rest ih =>
    obtain ⟨k1, v1⟩ := hd
    by_cases hk : k1 = k
    · simp only [jsUpsert, if_pos hk, List.mem_cons] at h
      rcases h with h | h
      · right
        rw [h, hk]
      · left
        exact List.mem_cons_of_mem _ h
    · simp only [jsUpsert, if_neg hk, List.mem_cons] at h
      rcases h with h | h
      · left
        simp [h]
      · rcases ih h with h' | h'
        · exact Or.inl (List.mem_cons_of_mem _ h')
        · exact Or.inr h'

theorem mem_keys_jsUpsert {α : Type} {l : List (String × α)} {k a : String} {v : α}
    (h : a ∈ (jsUpsert l k v).map Prod.fst) : a ∈ l.map Prod.fst ∨ a = k := by
  rcases List.mem_map.mp h with ⟨kv, hkv, rfl⟩
  rcases mem_jsUpsert hkv with h' | h'
  · exact Or.inl (List.mem_map_of_mem _ h')
  · exact Or.inr (by rw [h'])

theorem jsUpsert_keys_nodup {α : Type} (l : List (String × α)) (k : String) (v : α)
    (h : (l.map Prod.fst).Nodup) : ((jsUpsert l k v).map Prod.fst).Nodup := by
  induction l with
  | nil => simp [jsUpsert]
  | cons hd rest ih =>
    obtain ⟨k1, v1⟩ := hd
    simp only [List.map_cons, List.nodup_cons] at h
    by_cases hk : k1 = k
    · simpa [jsUpsert, hk] using h
    · simp only [jsUpsert, if_neg hk, List.map_cons, List.nodup_cons]
      refine ⟨fun hmem => ?_, ih h.2⟩
      rcases mem_keys_jsUpsert hmem with h' | h'
      · exact h.1 h'
      · exact hk h'

theorem extractVars_fold_nodup (ms : List (List Char)) (acc : List (String × String))
    (h : (acc.map Prod.fst).Nodup) :
    ((ms.foldl (fun acc m => jsUpsert acc (stripBracesTrim m) "string") acc).map
      Prod.fst).Nodup := by
  induction ms generalizing acc with
  | nil => exact h
  | cons m rest ih => exact ih _ (jsUpsert_keys_nodup _ _ _ h)

theorem extractVars_fold_values (ms : List (List Char)) (acc : List (String × String))
    (h : ∀ kv ∈ acc, kv.2 = "string") :
    ∀ kv ∈ ms.foldl (fun acc m => jsUpsert acc (stripBracesTrim m) "string") acc,
      kv.2 = "string" := by
  induction ms generalizing acc with
  | nil => exact h
  | cons m rest ih =>
    refine ih _ (fun kv hkv => ?_)
    rcases mem_jsUpsert hkv with h' | h'
    · exact h _ h'
    · rw [h']

unseal scanMatches in
/-- Claim C8: analyzing `"Hello {{name}}, you are {age}"` with type
generation enabled yields placeholder types `{name: "string",
age: "string"}`; in general the scan collects distinct identifiers (keys
are duplicate-free), maps every one to `"string"`, and with type generation
disabled `types` is left undefined. -/
theorem analyze_placeholders :
    (analyze "t/hello.md" "Hello \x7b\x7bname\x7d\x7d, you are \x7bage\x7d" true).types =
        some [("name", "string"), ("age", "string")]
      ∧ (∀ filepath content : String, (analyze filepath content false).types = none)
      ∧ (∀ content : String, ((extractVars content).map Prod.fst).Nodup)
      ∧ (∀ content : String, ∀ kv ∈ extractVars content, kv.2 = "string") :=
  ⟨rfl, fun _ _ => rfl, fun _ => extractVars_fold_nodup _ _ (by simp),
    fun _ => extractVars_fold_values _ _ (by simp)⟩

/-- Claim C8 witness at concrete inputs for the quantified parts. -/
theorem analyze_placeholders_witness :
    (analyze "t/a.md" "\x7bx\x7d" false).types = none
      ∧ ((extractVars "\x7bx\x7d\x7bx\x7d").map Prod.fst).Nodup :=
  ⟨analyze_placeholders.2.1 "t/a.md" "\x7bx\x7d",
    analyze_placeholders.2.2.1 "\x7bx\x7d\x7bx\x7d"⟩

/-! Helper lemmas for the sort comparator. -/

theorem nameLe_trans : ∀ (a b c : Entry), nameLe a b → nameLe b c → nameLe a c := by
  intro a b c h1 h2
  simp only [nameLe, decide_eq_true_eq] at *
  exact le_trans h1 h2

theorem nameLe_total : ∀ (a b : Entry), nameLe a b || nameLe b a := by
  intro a b
  simp only [nameLe]
  rcases le_total a.name b.name with h | h <;> simp [h]

/-- Claim C10: a non-empty `generate` call always sorts the stored entries
by name before invoking the code generator — the stored collection itself
becomes the sorted permutation (sorted with respect to the name order,
unconditionally, for every options value) and the generator is invoked on
exactly that sorted collection. -/
theorem generateTo_sorts (st : ABState) (destination : String) (options : GeneratorOptions)
    (h : st.entries ≠ []) :
    (generateTo st destination options).1.entries = st.entries.mergeSort nameLe
      ∧ ((generateTo st destination options).1.entries).Pairwise (fun a b => nameLe a b = true)
      ∧ ((generateTo st destination options).1.entries).Perm st.entries
      ∧ (generateTo st destination options).2.1 =
        some (generate ((generateTo st destination options).1.entries) options) := by
  have hlen : ¬(st.entries.length = 0) := by
    simpa [List.length_eq_zero] using h
  refine ⟨?_, ?_, ?_, ?_⟩
  · simp only [generateTo, if_neg hlen]
  · simp only [generateTo, if_neg hlen]
    exact @List.sorted_mergeSort Entry nameLe nameLe_trans nameLe_total st.entries
  · simp only [generateTo, if_neg hlen]
    exact List.mergeSort_perm st.entries nameLe
  · simp only [generateTo, if_neg hlen]

/-- Claim C10 witness at a concrete out-of-order collection. -/
theorem generateTo_sorts_witness :
    (generateTo ⟨[sampleEntry, sampleExtraEntry], []⟩ "out" {}).1.entries =
      [sampleEntry, sampleExtraEntry].mergeSort nameLe :=
  (generateTo_sorts ⟨[sampleEntry, sampleExtraEntry], []⟩ "out" {} (by simp)).1

/-! Helper lemmas for the compression round trip. -/

theorem decodeB64Char_encodeB64Char : ∀ n : Nat, n < 64 → decodeB64Char (encodeB64Char n) = n := by
  decide

theorem encodeB64Char_ne_pad : ∀ n : Nat, n < 64 → encodeB64Char n ≠ '=' := by
  decide

theorem b64Decode_b64Encode : ∀ (bs : List Nat), (∀ b ∈ bs, b < 256) →
    b64Decode (b64Encode bs) = bs := by
  intro bs
  induction bs using b64Encode.induct with
  | case1 =>
    intro _
    rfl
  | case2 b0 =>
    intro h
    have hb0 : b0 < 256 := h b0 (by simp)
    rw [b64Encode, b64Decode]
    dsimp only
    rw [if_pos rfl, decodeB64Char_encodeB64Char (b0 / 4) (by omega),
      decodeB64Char_encodeB64Char (b0 % 4 * 16) (by omega)]
    simp only [List.cons.injEq, and_true]
    omega
  | case3 b0 b1 =>
    intro h
    have hb0 : b0 < 256 := h b0 (by simp)
    have hb1 : b1 < 256 := h b1 (by simp)
    rw [b64Encode, b64Decode]
    dsimp only
    rw [if_neg (encodeB64Char_ne_pad (b1 % 16 * 4) (by omega)), if_pos rfl,
      decodeB64Char_encodeB64Char (b0 / 4) (by omega),
      decodeB64Char_encodeB64Char (b0 % 4 * 16 + b1 / 16) (by omega),
      decodeB64Char_encodeB64Char (b1 % 16 * 4) (by omega)]
    simp only [List.cons.injEq, and_true]
    constructor <;> omega
  | case4 b0 b1 b2 rest ih =>
    intro h
    have hb0 : b0 < 256 := h b0 (by simp)
    have hb1 : b1 < 256 := h b1 (by simp)
    have hb2 : b2 < 256 := h b2 (by simp)
    have hrest : ∀ b ∈ rest, b < 256 := fun b hb => h b (by simp [hb])
    rw [b64Encode, b64Decode]
    dsimp only
    rw [if_neg (encodeB64Char_ne_pad (b1 % 16 * 4 + b2 / 64) (by omega)),
      if_neg (encodeB64Char_ne_pad (b2 % 64) (by omega)),
      decodeB64Char_encodeB64Char (b0 / 4) (by omega),
      decodeB64Char_encodeB64Char (b0 % 4 * 16 + b1 / 16) (by omega),
      decodeB64Char_encodeB64Char (b1 % 16 * 4 + b2 / 64) (by omega),
      decodeB64Char_encodeB64Char (b2 % 64) (by omega), ih hrest]
    simp only [List.cons.injEq, and_true]
    refine ⟨by omega, by omega, by omega⟩

theorem utf8Decode_cons (b0 : Nat) (rest : List Nat) :
    utf8Decode (b0 :: rest) =
      utf8DecodeOne ((b0 :: rest).take (utf8SeqLen b0)) ::
        utf8Decode (rest.drop (utf8SeqLen b0 - 1)) := by
  rw [utf8Decode]

theorem utf8Decode_encodeChar (c : Char) (bs : List Nat) :
    utf8Decode (utf8EncodeChar c ++ bs) = c :: utf8Decode bs := by
  dsimp only [utf8EncodeChar]
  by_cases h1 : c.toNat < 128
  · rw [if_pos h1, List.cons_append, List.nil_append, utf8Decode_cons]
    have hn : utf8SeqLen c.toNat = 1 := by
      simp only [utf8SeqLen]
      rw [if_pos (by omega)]
    rw [hn]
    simp only [List.take, List.drop, Nat.sub_self, List.drop_zero]
    rw [show utf8DecodeOne [c.toNat] = if c.toNat < 128 then Char.ofNat c.toNat
        else Char.ofNat 65533 from rfl, if_pos h1, Char.ofNat_toNat]
  · rw [if_neg h1]
    by_cases h2 : c.toNat < 2048
    · rw [if_pos h2]
      simp only [List.cons_append, List.nil_append]
      rw [utf8Decode_cons]
      have hn : utf8SeqLen (192 + c.toNat / 64) = 2 := by
        simp only [utf8SeqLen]
        rw [if_neg (by omega), if_pos (by omega)]
      rw [hn]
      simp only [List.take, List.drop]
      rw [show utf8DecodeOne [192 + c.toNat / 64, 128 + c.toNat % 64] =
          Char.ofNat ((192 + c.toNat / 64 - 192) * 64 + (128 + c.toNat % 64 - 128)) from rfl]
      have e1 : (192 + c.toNat / 64 - 192) * 64 + (128 + c.toNat % 64 - 128) = c.toNat := by
        omega
      rw [e1, Char.ofNat_toNat]
    · rw [if_neg h2]
      by_cases h3 : c.toNat < 65536
      · rw [if_pos h3]
        simp only [List.cons_append, List.nil_append]
        rw [utf8Decode_cons]
        have hn : utf8SeqLen (224 + c.toNat / 4096) = 3 := by
          simp only [utf8SeqLen]
          rw [if_neg (by omega), if_neg (by omega), if_pos (by omega)]
        rw [hn]
        simp only [List.take, List.drop]
        rw [show utf8DecodeOne [224 + c.toNat / 4096, 128 + c.toNat / 64 % 64,
            128 + c.toNat % 64] = Char.ofNat ((224 + c.toNat / 4096 - 224) * 4096 +
            (128 + c.toNat / 64 % 64 - 128) * 64 + (128 + c.toNat % 64 - 128)) from rfl]
        have e1 : (224 + c.toNat / 4096 - 224) * 4096 + (128 + c.toNat / 64 % 64 - 128) * 64 +
            (128 + c.toNat % 64 - 128) = c.toNat := by
          omega
        rw [e1, Char.ofNat_toNat]
      · rw [if_neg h3]
        simp only [List.cons_append, List.nil_append]
        rw [utf8Decode_cons]
        have hn : utf8SeqLen (240 + c.toNat / 262144) = 4 := by
          simp only [utf8SeqLen]
          rw [if_neg (by omega), if_neg (by omega), if_neg (by omega)]
        rw [hn]
        simp only [List.take, List.drop]
        rw [show utf8DecodeOne [240 + c.toNat / 262144, 128 + c.toNat / 4096 % 64,
            128 + c.toNat / 64 % 64, 128 + c.toNat % 64] =
            Char.ofNat ((240 + c.toNat / 262144 - 240) * 262144 +
              (128 + c.toNat / 4096 % 64 - 128) * 4096 + (128 + c.toNat / 64 % 64 - 128) * 64 +
              (128 + c.toNat % 64 - 128)) from rfl]
        have e1 : (240 + c.toNat / 262144 - 240) * 262144 + (128 + c.toNat / 4096 % 64 - 128) *
            4096 + (128 + c.toNat / 64 % 64 - 128) * 64 + (128 + c.toNat % 64 - 128) =
            c.toNat := by
          omega
        rw [e1, Char.ofNat_toNat]

theorem utf8Decode_utf8Encode (cs : List Char) : utf8Decode (utf8Encode cs) = cs := by
  induction cs with
  | nil =>
    rw [utf8Encode, utf8Decode]
  | cons c rest ih => rw [utf8Encode, utf8Decode_encodeChar, ih]

theorem char_toNat_lt (c : Char) : c.toNat < 1114112 := by
  rcases c.valid with h | ⟨_, h⟩
  · have h2 := @UInt32.toNat_lt_of_lt c.val 55296 (by decide) h
    simp only [Char.toNat]
    omega
  · have h2 := @UInt32.toNat_lt_of_lt c.val 1114112 (by decide) h
    simp only [Char.toNat]
    omega

theorem utf8Encode_lt_256 : ∀ (cs : List Char), ∀ b ∈ utf8Encode cs, b < 256 := by
  intro cs
  induction cs with
  | nil => simp [utf8Encode]
  | cons c rest ih =>
    intro b hb
    rw [utf8Encode] at hb
    rcases List.mem_append.mp hb with h | h
    · have hv : c.toNat < 1114112 := char_toNat_lt c
      dsimp only [utf8EncodeChar] at h
      repeat' split at h
      all_goals (simp at h; omega)
    · exact ih b h

theorem stringMk_toList (s : String) : String.mk s.toList = s := by
  cases s
  rfl

/-- Claim C9: the decompressor accepts exactly the encoding the compressor
produces — for every string `c`, deflating (the opaque byte capability
`comp`) and base64-encoding, then base64-decoding and inflating (`decomp`)
and UTF-8-decoding, returns `c`, whenever the capability round-trips the
relevant bytes and yields genuine bytes. -/
theorem decompressor_compressor (comp decomp : List Nat → List Nat) (c : String)
    (h1 : decomp (comp (utf8Encode c.toList)) = utf8Encode c.toList)
    (h2 : ∀ b ∈ comp (utf8Encode c.toList), b < 256) :
    decompressor decomp (compressor comp c) = c := by
  unfold compressor decompressor
  rw [show (String.mk (b64Encode (comp (utf8Encode c.toList)))).toList =
      b64Encode (comp (utf8Encode c.toList)) from rfl,
    b64Decode_b64Encode _ h2, h1, utf8Decode_utf8Encode, stringMk_toList]

/-- Claim C9 witness with the identity capability on a concrete string. -/
theorem decompressor_compressor_witness :
    decompressor id (compressor id "Hi!") = "Hi!" :=
  decompressor_compressor id id "Hi!" rfl (by decide)

end AetherBytes
